import Mathlib

/-
  Verification of the loan ledger computation engine of the
  BigelowFamilyLoanTracker application (src/src/App.jsx, LoanDetailScreen):
  the ledger builder (transactionsForDisplay), the interest accrual
  reconciler (runInterestCalculation), the projection engine
  (handleCalculateProjections) and the display derivations
  (percentagePaidOff).  Dates are modelled as calendar triples with the
  chronological (lexicographic) order, monetary amounts as exact rationals.
-/

namespace LoanTracker

/-- Calendar date, in the JavaScript convention: `m` is the zero-based
month (0 = January) and `day` the one-based day of month. -/
structure Date where
  y : Int
  m : Int
  day : Int
deriving DecidableEq, Repr

/-- Chronological strict order on dates (what `getTime` comparison does). -/
def Date.lt (a b : Date) : Prop :=
  a.y < b.y ∨ (a.y = b.y ∧ (a.m < b.m ∨ (a.m = b.m ∧ a.day < b.day)))

/-- Chronological order on dates, non-strict. -/
def Date.le (a b : Date) : Prop :=
  a.y < b.y ∨ (a.y = b.y ∧ (a.m < b.m ∨ (a.m = b.m ∧ a.day ≤ b.day)))

instance : DecidableRel Date.lt := fun a b => by
  unfold Date.lt; exact inferInstance

instance : DecidableRel Date.le := fun a b => by
  unfold Date.le; exact inferInstance

theorem Date.le_refl (a : Date) : Date.le a a := by
  unfold Date.le; omega

theorem Date.le_trans {a b c : Date} (h₁ : Date.le a b) (h₂ : Date.le b c) :
    Date.le a c := by
  unfold Date.le at *; omega

theorem Date.le_total (a b : Date) : Date.le a b ∨ Date.le b a := by
  unfold Date.le; omega

theorem Date.lt_le_trans {a b c : Date} (h₁ : Date.lt a b) (h₂ : Date.le b c) :
    Date.lt a c := by
  unfold Date.lt Date.le at *; omega

theorem Date.lt_irrefl (a : Date) : ¬ Date.lt a a := by
  unfold Date.lt; omega

theorem Date.not_le_of_lt {a b : Date} (h : Date.lt a b) : ¬ Date.le b a := by
  unfold Date.lt Date.le at *; omega

/-- The transaction types of the application: user transactions are
`payment` and `loanIncrease`, the reconciler writes `interest`
transactions, and the ledger builder prepends one synthetic `initial`
entry. -/
inductive TxType where
  | payment
  | loanIncrease
  | interest
  | initial
deriving DecidableEq, Repr

/-- A dated monetary event, as stored (or, for the synthetic initial
entry, as built in memory).  `amount` is unsigned: the sign in effect is
implied by `type`. -/
structure Tx where
  date : Date
  type : TxType
  amount : ℚ
  description : String
  authorId : String
deriving DecidableEq, Repr

/-- The per-loan settings document (loanData.settings).  Absent fields are
`none`; the code also treats a zero `initialLoanAmount` as unconfigured
because of JavaScript falsiness. -/
structure Settings where
  appTitle : String
  initialLoanAmount : Option ℚ
  interestRate : Option ℚ
  initialLoanDate : Option Date
deriving DecidableEq, Repr

/-- One fold step of the running balance:
`payment` subtracts, every other type adds. -/
def applyTx (bal : ℚ) (t : Tx) : ℚ :=
  if t.type = TxType.payment then bal - t.amount else bal + t.amount

/-- The comparison used by every `.sort((a, b) => a.date - b.date)` in the
source: ascending by date. -/
def txLE (a b : Tx) : Prop := Date.le a.date b.date

instance : DecidableRel txLE := fun a b => by
  unfold txLE; exact inferInstance

instance : IsTotal Tx txLE :=
  ⟨fun a b => Date.le_total a.date b.date⟩

instance : IsTrans Tx txLE :=
  ⟨fun _ _ _ h₁ h₂ => Date.le_trans h₁ h₂⟩

/-- Stable ascending sort by date (JavaScript `Array.prototype.sort` is
stable, as is insertion sort). -/
def sortByDate (l : List Tx) : List Tx := List.insertionSort txLE l

/-- The synthetic initial entry prepended by the ledger builder:
`id initial, date, description Initial Loan Amount, amount, type initial`. -/
def initialEntry (a : ℚ) (d : Date) : Tx :=
  ⟨d, TxType.initial, a, "Initial Loan Amount", ""⟩

/-- Fold order of the ledger: the synthetic initial entry together with
all transactions, sorted ascending by date. -/
def ledgerAll (a : ℚ) (d : Date) (ts : List Tx) : List Tx :=
  sortByDate (initialEntry a d :: ts)

/-- A ledger display entry: a transaction together with the running
balance after it. -/
structure LedgerEntry extends Tx where
  runningBalance : ℚ
deriving DecidableEq, Repr

/-- The running-balance map of the ledger builder: starting from `bal`,
attach to each entry the balance after applying it. -/
def foldEntries (bal : ℚ) : List Tx → List LedgerEntry
  | [] => []
  | t :: ts =>
    let b := applyTx bal t
    ⟨t, b⟩ :: foldEntries b ts

/-- The `lastPaymentInfo` computed during the fold: the chronologically
latest `payment` entry in fold order. -/
def lastPaymentOf (l : List Tx) : Option (Date × ℚ) :=
  ((l.filter (fun t => t.type = TxType.payment)).getLast?).map
    (fun t => (t.date, t.amount))

/-- The ledger builder (the `transactionsForDisplay` memo): entries with
running balances, the current running balance, and the last payment.
Unconfigured loans (absent fields, or a zero amount, which is falsy in
JavaScript) give the empty ledger with balance 0. -/
def buildLedger (s : Settings) (ts : List Tx) :
    List LedgerEntry × ℚ × Option (Date × ℚ) :=
  match s.initialLoanAmount, s.initialLoanDate with
  | some a, some d =>
    if a = 0 then ([], 0, none)
    else
      let sorted := ledgerAll a d ts
      (foldEntries 0 sorted, sorted.foldl applyTx 0, lastPaymentOf sorted)
  | _, _ => ([], 0, none)

/-- The running balance the ledger shows at calendar date `p`: the
`runningBalance` of the last entry dated on or before `p` (0 when there
is none). -/
def balanceAt (entries : List LedgerEntry) (p : Date) : ℚ :=
  ((((entries.filter (fun e => Date.le e.date p)).getLast?).map
    LedgerEntry.runningBalance)).getD 0

/-- The `percentagePaidOff` memo: 0 for an unconfigured or non-positive
initial amount, otherwise the clamp to [0, 100] of the payment total as a
percentage of the initial amount. -/
def percentagePaidOff (s : Settings) (ts : List Tx) : ℚ :=
  match s.initialLoanAmount with
  | none => 0
  | some a =>
    if a ≤ 0 then 0
    else
      let totalPrincipalPaid :=
        (ts.filter (fun t => t.type = TxType.payment)).foldl
          (fun acc t => acc + t.amount) 0
      max 0 (min 100 (totalPrincipalPaid / a * 100))

/-- Leap year rule of the Gregorian calendar (what JavaScript Date
implements for February). -/
def isLeap (y : Int) : Prop :=
  y % 4 = 0 ∧ (y % 100 ≠ 0 ∨ y % 400 = 0)

instance : DecidablePred isLeap := fun y => by
  unfold isLeap; exact inferInstance

/-- Number of days of zero-based month `m` of year `y`. -/
def daysInMonth (y m : Int) : Int :=
  if m = 1 then (if isLeap y then 29 else 28)
  else if m = 3 ∨ m = 5 ∨ m = 8 ∨ m = 10 then 30
  else 31

/-- `new Date(year, month, 1)`. -/
def startOfMonth (d : Date) : Date := ⟨d.y, d.m, 1⟩

/-- `new Date(year, month + 1, 0)`: the last calendar day of the month of
`d`. -/
def endOfMonth (d : Date) : Date := ⟨d.y, d.m, daysInMonth d.y d.m⟩

/-- `dateIterator.setMonth(dateIterator.getMonth() + 1)`: step to the next
month, rolling a day-of-month overflow into the following month the way
JavaScript Date normalisation does. -/
def addMonthJS (d : Date) : Date :=
  let y := if d.m = 11 then d.y + 1 else d.y
  let m := if d.m = 11 then 0 else d.m + 1
  let dim := daysInMonth y m
  if d.day > dim then
    if m = 11 then ⟨y + 1, 0, d.day - dim⟩ else ⟨y, m + 1, d.day - dim⟩
  else ⟨y, m, d.day⟩

/-- One decimal digit as a string. -/
def digitStr (d : Nat) : String :=
  if d = 0 then "0" else if d = 1 then "1" else if d = 2 then "2"
  else if d = 3 then "3" else if d = 4 then "4" else if d = 5 then "5"
  else if d = 6 then "6" else if d = 7 then "7" else if d = 8 then "8"
  else "9"

/-- Decimal rendering of a natural number, fuel-bounded (ten digits
suffice for every calendar year). -/
def natStrAux : Nat → Nat → String
  | 0, _ => ""
  | fuel + 1, n =>
    if n < 10 then digitStr n else natStrAux fuel (n / 10) ++ digitStr (n % 10)

/-- Decimal rendering of an integer, as JavaScript template interpolation
renders a year. -/
def intStr (y : Int) : String :=
  if y < 0 then "-" ++ natStrAux 10 (-y).toNat else natStrAux 10 y.toNat

/-- English month name of zero-based month `m`
(the long month name the source obtains from `toLocaleString`). -/
def monthName (m : Int) : String :=
  if m = 0 then "January"
  else if m = 1 then "February"
  else if m = 2 then "March"
  else if m = 3 then "April"
  else if m = 4 then "May"
  else if m = 5 then "June"
  else if m = 6 then "July"
  else if m = 7 then "August"
  else if m = 8 then "September"
  else if m = 9 then "October"
  else if m = 10 then "November"
  else "December"

/-- The month loop of `runInterestCalculation`: walk months from the
iterator while the month end precedes today; each month, rebuild the
balance from the dynamic transaction list dated strictly before the month
start, and when balance and rate are positive and the accrual exceeds the
half-cent threshold, emit an interest transaction dated at month end and
push it into the dynamic list.  `fuel` bounds the recursion; any fuel at
least the number of elapsed months gives the exact behaviour of the loop. -/
def interestLoop (rate : ℚ) (today : Date) :
    Nat → Date → List Tx → List Tx
  | 0, _, _ => []
  | fuel + 1, iter, dyn =>
    if Date.lt (endOfMonth iter) today then
      let som := startOfMonth iter
      let balance := (dyn.filter (fun t => Date.lt t.date som)).foldl applyTx 0
      if 0 < balance ∧ 0 < rate then
        let interestAmount := balance * ((rate / 100) / 12)
        if 0.005 < interestAmount then
          let tx : Tx :=
            ⟨endOfMonth iter, TxType.interest, interestAmount,
              "Monthly Interest - " ++ monthName iter.m ++ " " ++ intStr iter.y,
              "system"⟩
          tx :: interestLoop rate today fuel (addMonthJS iter) (sortByDate (tx :: dyn))
        else interestLoop rate today fuel (addMonthJS iter) dyn
      else interestLoop rate today fuel (addMonthJS iter) dyn
    else []

/-- The set of interest transactions one reconciliation pass generates
from a snapshot `basis` of the transaction store: the non-interest
transactions plus the synthetic initial entry, sorted, feed the month
loop.  Yields nothing when the loan is not configured (the guard of
`runInterestCalculation`). -/
def generatedAccruals (s : Settings) (today : Date) (fuel : Nat)
    (basis : List Tx) : List Tx :=
  match s.initialLoanDate, s.interestRate with
  | some d, some rate =>
    let nonInterestTransactions :=
      basis.filter (fun t => ¬ t.type = TxType.interest)
    let dynamicTransactions :=
      sortByDate (⟨d, TxType.initial, s.initialLoanAmount.getD 0, "", ""⟩
        :: nonInterestTransactions)
    interestLoop rate today fuel d dynamicTransactions
  | _, _ => []

/-- `runInterestCalculation(currentLoanData, currentTransactions)` as a
transformation of the transaction store.  `args` is `none` when the
function is invoked without arguments (as every call site in the source
does): the guard `!currentLoanData` then returns before touching the
store.  Otherwise, when the loan is configured, every stored
interest-type transaction is deleted and the regenerated accruals are
inserted, in one batch. -/
def runInterestCalculation (args : Option (Settings × List Tx))
    (today : Date) (fuel : Nat) (store : List Tx) : List Tx :=
  match args with
  | none => store
  | some (s, currentTransactions) =>
    match s.initialLoanDate, s.interestRate with
    | some _, some _ =>
      store.filter (fun t => ¬ t.type = TxType.interest)
        ++ generatedAccruals s today fuel currentTransactions
    | _, _ => store

/-- One reconciliation pass invoked on a current snapshot: the arguments
are the settings and the present content of the store. -/
def reconcileInterest (s : Settings) (today : Date) (fuel : Nat)
    (store : List Tx) : List Tx :=
  runInterestCalculation (some (s, store)) today fuel store

/-- The settings form state (strings already parsed): `none` models a
`parseFloat` result of NaN or an empty date field. -/
structure FormSettings where
  appTitle : String
  initialLoanAmount : Option ℚ
  interestRate : ℚ
  initialLoanDate : Option Date
deriving DecidableEq, Repr

/-- `handleSaveSettings`: validate, write the merged settings (the spread
over the previous settings overwrites all four modelled fields), then
invoke `runInterestCalculation()` with no arguments (exactly as the
source does).  Returns `none` on validation failure (nothing written),
otherwise the stored settings and the transaction store after the
interest call. -/
def handleSaveSettings (_prev : Settings) (form : FormSettings)
    (today : Date) (fuel : Nat) (store : List Tx) :
    Option (Settings × List Tx) :=
  match form.initialLoanAmount, form.initialLoanDate with
  | some a, some d =>
    let newSettings : Settings :=
      ⟨form.appTitle, some a, some form.interestRate, some d⟩
    some (newSettings, runInterestCalculation none today fuel store)
  | _, _ => none

/-- One row of the amortization schedule built by
`handleCalculateProjections`. -/
structure AmortRow where
  month : Nat
  payment : ℚ
  principal : ℚ
  interest : ℚ
  endingBalance : ℚ
deriving DecidableEq, Repr

/-- The two validation failures of the projection engine. -/
inductive ProjectionError where
  | invalidPayment
  | paymentTooSmall
deriving DecidableEq, Repr

/-- The amortization loop `while (balance > 0 && month < 600)`.  `fuel`
only bounds the recursion; the top-level call passes 601, which the loop
can never exhaust because the month counter reaches 600 first. -/
def amortAux (monthlyRate monthlyPayment : ℚ) :
    Nat → ℚ → Nat → List AmortRow
  | 0, _, _ => []
  | fuel + 1, balance, month =>
    if 0 < balance ∧ month < 600 then
      let interestForMonth := balance * monthlyRate
      let principalForMonth := monthlyPayment - interestForMonth
      let b := balance - principalForMonth
      ⟨month, monthlyPayment, principalForMonth, interestForMonth,
        if 0 < b then b else 0⟩
        :: amortAux monthlyRate monthlyPayment fuel b (month + 1)
    else []

/-- `handleCalculateProjections` as a pure function of the current
balance, the annual rate percentage and the hypothetical monthly
payment. -/
def handleCalculateProjections (currentRunningBalance interestRate
    monthlyPayment : ℚ) : Except ProjectionError (List AmortRow) :=
  if monthlyPayment ≤ 0 then Except.error ProjectionError.invalidPayment
  else
    let monthlyRate := (interestRate / 100) / 12
    if monthlyPayment ≤ currentRunningBalance * monthlyRate then
      Except.error ProjectionError.paymentTooSmall
    else
      Except.ok (amortAux monthlyRate monthlyPayment 601 currentRunningBalance 1)

/-- The signed effect of one entry on the balance. -/
def signedAmt (t : Tx) : ℚ :=
  if t.type = TxType.payment then -t.amount else t.amount

/-- Sum of `loanIncrease` and `interest` amounts dated on or before `p`. -/
def creditSum : List Tx → Date → ℚ
  | [], _ => 0
  | t :: ts, p =>
    (if (t.type = TxType.loanIncrease ∨ t.type = TxType.interest)
        ∧ Date.le t.date p then t.amount else 0) + creditSum ts p

/-- Sum of `payment` amounts dated on or before `p`. -/
def debitSum : List Tx → Date → ℚ
  | [], _ => 0
  | t :: ts, p =>
    (if t.type = TxType.payment ∧ Date.le t.date p then t.amount else 0)
      + debitSum ts p

/-- Sum of all `payment` amounts, regardless of date. -/
def paymentsTotal (ts : List Tx) : ℚ :=
  ((ts.filter (fun t => t.type = TxType.payment)).map Tx.amount).sum

/-- Scenario A and B settings: amount 1000, rate 0, dated 2024-01-01. -/
def settingsA : Settings := ⟨"", some 1000, some 0, some ⟨2024, 0, 1⟩⟩

/-- Scenario B transactions: a loanIncrease of 100 on 2024-01-15 and a
payment of 200 on 2024-02-01. -/
def txsScenarioB : List Tx :=
  [⟨⟨2024, 0, 15⟩, TxType.loanIncrease, 100, "", "user"⟩,
   ⟨⟨2024, 1, 1⟩, TxType.payment, 200, "", "user"⟩]

/-- Scenario C settings: amount 1000, annual rate 12 percent, dated
2024-01-15. -/
def settingsC : Settings := ⟨"", some 1000, some 12, some ⟨2024, 0, 15⟩⟩

/-- A loan configured with amount 1000 and initial date 2024-02-01. -/
def settingsFeb : Settings := ⟨"", some 1000, some 0, some ⟨2024, 1, 1⟩⟩

/-- A payment dated 2024-01-10, before the initial date of
`settingsFeb`. -/
def preDateTx : Tx := ⟨⟨2024, 0, 10⟩, TxType.payment, 50, "", "user"⟩

theorem applyTx_eq (b : ℚ) (t : Tx) : applyTx b t = b + signedAmt t := by
  unfold applyTx signedAmt
  split <;> ring

theorem foldl_applyTx (l : List Tx) (b : ℚ) :
    l.foldl applyTx b = b + (l.map signedAmt).sum := by
  induction l generalizing b with
  | nil => simp
  | cons t ts ih =>
    rw [List.foldl_cons, ih, applyTx_eq]
    simp [add_assoc]

theorem foldEntries_append (l₁ l₂ : List Tx) (b : ℚ) :
    foldEntries b (l₁ ++ l₂)
      = foldEntries b l₁ ++ foldEntries (l₁.foldl applyTx b) l₂ := by
  induction l₁ generalizing b with
  | nil => simp [foldEntries]
  | cons t ts ih => simp [foldEntries, ih]

theorem foldEntries_map_toTx (l : List Tx) (b : ℚ) :
    (foldEntries b l).map LedgerEntry.toTx = l := by
  induction l generalizing b with
  | nil => rfl
  | cons t ts ih => simp [foldEntries, ih]

theorem mem_foldEntries (l : List Tx) (b : ℚ) (e : LedgerEntry)
    (he : e ∈ foldEntries b l) : e.toTx ∈ l := by
  have h := List.mem_map_of_mem LedgerEntry.toTx he
  rwa [foldEntries_map_toTx] at h

theorem filter_foldEntries (l₁ l₂ : List Tx) (b : ℚ) (p : Date)
    (h₁ : ∀ t ∈ l₁, Date.le t.date p)
    (h₂ : ∀ t ∈ l₂, ¬ Date.le t.date p) :
    (foldEntries b (l₁ ++ l₂)).filter (fun e => Date.le e.date p)
      = foldEntries b l₁ := by
  rw [foldEntries_append, List.filter_append]
  have ha : (foldEntries b l₁).filter (fun e => Date.le e.date p)
      = foldEntries b l₁ := by
    rw [List.filter_eq_self]
    intro e he
    simpa using h₁ e.toTx (mem_foldEntries l₁ b e he)
  have hb : (foldEntries (l₁.foldl applyTx b) l₂).filter
      (fun e => Date.le e.date p) = [] := by
    rw [List.filter_eq_nil_iff]
    intro e he
    simpa using h₂ e.toTx (mem_foldEntries l₂ _ e he)
  rw [ha, hb, List.append_nil]

theorem getLast_foldEntries (t : Tx) (ts : List Tx) (b : ℚ) :
    ((foldEntries b (t :: ts)).getLast?).map LedgerEntry.runningBalance
      = some ((t :: ts).foldl applyTx b) := by
  induction ts generalizing t b with
  | nil => simp [foldEntries]
  | cons t₂ ts₂ ih =>
    have h : foldEntries b (t :: t₂ :: ts₂)
        = ⟨t, applyTx b t⟩ :: ⟨t₂, applyTx (applyTx b t) t₂⟩
            :: foldEntries (applyTx (applyTx b t) t₂) ts₂ := rfl
    rw [h, List.getLast?_cons_cons]
    have h₂ : (⟨t₂, applyTx (applyTx b t) t₂⟩ : LedgerEntry)
        :: foldEntries (applyTx (applyTx b t) t₂) ts₂
        = foldEntries (applyTx b t) (t₂ :: ts₂) := rfl
    rw [h₂, ih]
    rfl

theorem dropWhile_sorted_not (p : Date) :
    ∀ l : List Tx, List.Sorted txLE l →
      ∀ t ∈ l.dropWhile (fun t => Date.le t.date p), ¬ Date.le t.date p := by
  intro l
  induction l with
  | nil =>
    intro _ t ht
    simp [List.dropWhile] at ht
  | cons a l ih =>
    intro hs t ht
    rw [List.sorted_cons] at hs
    by_cases ha : Date.le a.date p
    · rw [List.dropWhile_cons, if_pos (decide_eq_true ha)] at ht
      exact ih hs.2 t ht
    · rw [List.dropWhile_cons,
        if_neg (fun hc => ha (of_decide_eq_true hc))] at ht
      rcases List.mem_cons.mp ht with rfl | htl
      · exact ha
      · exact fun hle => ha (Date.le_trans (hs.1 t htl) hle)

theorem balanceAt_foldEntries (l : List Tx) (hs : List.Sorted txLE l)
    (p : Date) :
    balanceAt (foldEntries 0 l) p
      = ((l.filter (fun t => Date.le t.date p)).map signedAmt).sum := by
  have hsplit : l.takeWhile (fun t => Date.le t.date p)
      ++ l.dropWhile (fun t => Date.le t.date p) = l :=
    List.takeWhile_append_dropWhile _ _
  have htw : ∀ t ∈ l.takeWhile (fun t => Date.le t.date p),
      Date.le t.date p := by
    intro t ht
    simpa using List.mem_takeWhile_imp ht
  have hdw : ∀ t ∈ l.dropWhile (fun t => Date.le t.date p),
      ¬ Date.le t.date p := dropWhile_sorted_not p l hs
  have h₁ : (foldEntries 0 l).filter (fun e => Date.le e.date p)
      = foldEntries 0 (l.takeWhile (fun t => Date.le t.date p)) := by
    conv_lhs => rw [← hsplit]
    exact filter_foldEntries _ _ 0 p htw hdw
  have h₂ : l.filter (fun t => Date.le t.date p)
      = l.takeWhile (fun t => Date.le t.date p) := by
    conv_lhs => rw [← hsplit]
    rw [List.filter_append]
    have ha : (l.takeWhile (fun t => Date.le t.date p)).filter
        (fun t => Date.le t.date p)
        = l.takeWhile (fun t => Date.le t.date p) := by
      rw [List.filter_eq_self]
      intro t ht
      simpa using htw t ht
    have hb : (l.dropWhile (fun t => Date.le t.date p)).filter
        (fun t => Date.le t.date p) = [] := by
      rw [List.filter_eq_nil_iff]
      intro t ht
      simpa using hdw t ht
    rw [ha, hb, List.append_nil]
  unfold balanceAt
  rw [h₁, h₂]
  cases htw2 : l.takeWhile (fun t => Date.le t.date p) with
  | nil => simp [foldEntries]
  | cons x xs =>
    rw [getLast_foldEntries x xs 0]
    simp [foldl_applyTx, applyTx_eq]

theorem balanceAt_ledger (a : ℚ) (d : Date) (ts : List Tx) (p : Date) :
    balanceAt (foldEntries 0 (ledgerAll a d ts)) p
      = (((initialEntry a d :: ts).filter
          (fun t => Date.le t.date p)).map signedAmt).sum := by
  have hs : List.Sorted txLE (ledgerAll a d ts) :=
    List.sorted_insertionSort txLE _
  rw [balanceAt_foldEntries _ hs p]
  have hperm : List.Perm (ledgerAll a d ts) (initialEntry a d :: ts) :=
    List.perm_insertionSort txLE _
  exact List.Perm.sum_eq (List.Perm.map _ (List.Perm.filter _ hperm))

theorem signed_filter_sum (p : Date) :
    ∀ ts : List Tx, (∀ t ∈ ts, ¬ t.type = TxType.initial) →
      ((ts.filter (fun t => Date.le t.date p)).map signedAmt).sum
        = creditSum ts p - debitSum ts p := by
  intro ts
  induction ts with
  | nil => simp [creditSum, debitSum]
  | cons t ts ih =>
    intro h
    have ht := h t (List.mem_cons_self t ts)
    have ih2 := ih fun x hx => h x (List.mem_cons_of_mem t hx)
    rw [List.filter_cons]
    by_cases hd : Date.le t.date p
    · rw [if_pos (by simpa using hd), List.map_cons, List.sum_cons, ih2]
      cases htype : t.type with
      | payment => simp [creditSum, debitSum, signedAmt, htype, hd]; ring
      | loanIncrease => simp [creditSum, debitSum, signedAmt, htype, hd]; ring
      | interest => simp [creditSum, debitSum, signedAmt, htype, hd]; ring
      | initial => exact absurd htype ht
    · rw [if_neg (by simpa using hd), ih2]
      simp [creditSum, debitSum, hd]

theorem interestLoop_mem_type (rate : ℚ) (today : Date) :
    ∀ fuel iter dyn t, t ∈ interestLoop rate today fuel iter dyn →
      t.type = TxType.interest := by
  intro fuel
  induction fuel with
  | zero =>
    intro iter dyn t ht
    simp [interestLoop] at ht
  | succ n ih =>
    intro iter dyn t ht
    simp only [interestLoop] at ht
    split at ht
    · split at ht
      · split at ht
        · rcases List.mem_cons.mp ht with rfl | ht2
          · rfl
          · exact ih _ _ t ht2
        · exact ih _ _ t ht
      · exact ih _ _ t ht
    · simp at ht

theorem generatedAccruals_mem_type (s : Settings) (today : Date)
    (fuel : Nat) (basis : List Tx) :
    ∀ t ∈ generatedAccruals s today fuel basis,
      t.type = TxType.interest := by
  intro t ht
  unfold generatedAccruals at ht
  split at ht
  · exact interestLoop_mem_type _ _ _ _ _ t ht
  · simp at ht

theorem generatedAccruals_congr (s : Settings) (today : Date) (fuel : Nat)
    (b₁ b₂ : List Tx)
    (h : b₁.filter (fun t => ¬ t.type = TxType.interest)
      = b₂.filter (fun t => ¬ t.type = TxType.interest)) :
    generatedAccruals s today fuel b₁ = generatedAccruals s today fuel b₂ := by
  unfold generatedAccruals
  simp only [h]

theorem filter_nonInterest_of_gen (store gen : List Tx)
    (hg : ∀ t ∈ gen, t.type = TxType.interest) :
    (store.filter (fun t => ¬ t.type = TxType.interest) ++ gen).filter
        (fun t => ¬ t.type = TxType.interest)
      = store.filter (fun t => ¬ t.type = TxType.interest) := by
  rw [List.filter_append]
  have h₁ : (store.filter (fun t => ¬ t.type = TxType.interest)).filter
      (fun t => ¬ t.type = TxType.interest)
      = store.filter (fun t => ¬ t.type = TxType.interest) := by
    rw [List.filter_eq_self]
    intro a ha
    exact (List.mem_filter.mp ha).2
  have h₂ : gen.filter (fun t => ¬ t.type = TxType.interest) = [] := by
    rw [List.filter_eq_nil_iff]
    intro a ha
    simp [hg a ha]
  rw [h₁, h₂, List.append_nil]

theorem amortAux_eq_nil (mr p : ℚ) (fuel : Nat) (bal : ℚ) (month : Nat)
    (h : ¬ 0 < bal) : amortAux mr p fuel bal month = [] := by
  cases fuel with
  | zero => rfl
  | succ n =>
    simp only [amortAux]
    rw [if_neg (fun hc => h hc.1)]

theorem amortAux_chain (mr p : ℚ) (hp : 0 < p) :
    ∀ fuel (bal : ℚ) (month : Nat), (0 < bal → bal * mr < p) →
      List.Chain (fun x y : ℚ => y < x) bal
        ((amortAux mr p fuel bal month).map AmortRow.endingBalance) := by
  intro fuel
  induction fuel with
  | zero =>
    intro bal month _
    simp only [amortAux, List.map_nil]
    exact List.Chain.nil
  | succ n ih =>
    intro bal month h
    simp only [amortAux]
    split
    case isTrue hc =>
      have hbal : 0 < bal := hc.1
      have hinterest : bal * mr < p := h hbal
      have hb2 : bal - (p - bal * mr) < bal := by linarith
      rw [List.map_cons]
      refine List.Chain.cons ?_ ?_
      · show (if 0 < bal - (p - bal * mr) then bal - (p - bal * mr) else 0) < bal
        by_cases h2 : 0 < bal - (p - bal * mr)
        · rw [if_pos h2]; exact hb2
        · rw [if_neg h2]; exact hbal
      · by_cases h2 : 0 < bal - (p - bal * mr)
        · have hinv : 0 < bal - (p - bal * mr) →
              (bal - (p - bal * mr)) * mr < p := by
            intro _
            rcases le_or_lt 0 mr with hmr | hmr
            · calc (bal - (p - bal * mr)) * mr ≤ bal * mr :=
                mul_le_mul_of_nonneg_right (le_of_lt hb2) hmr
              _ < p := hinterest
            · calc (bal - (p - bal * mr)) * mr < 0 :=
                mul_neg_of_pos_of_neg h2 hmr
              _ < p := hp
          rw [if_pos h2]
          exact ih (bal - (p - bal * mr)) (month + 1) hinv
        · rw [if_neg h2, amortAux_eq_nil mr p n _ _ h2, List.map_nil]
          exact List.Chain.nil
    case isFalse =>
      rw [List.map_nil]
      exact List.Chain.nil

theorem amortAux_length (mr p : ℚ) :
    ∀ fuel (bal : ℚ) (month : Nat), 600 ≤ month + fuel →
      (amortAux mr p fuel bal month).length ≤ 600 - month ∧
        (amortAux mr p fuel bal month = [] ∨
          ((amortAux mr p fuel bal month).getLast?).map AmortRow.endingBalance
            = some 0 ∨
          (amortAux mr p fuel bal month).length = 600 - month) := by
  intro fuel
  induction fuel with
  | zero =>
    intro bal month h
    simp [amortAux]
  | succ n ih =>
    intro bal month h
    simp only [amortAux]
    split
    case isTrue hc =>
      have hmonth : month < 600 := hc.2
      have hrec := ih (bal - (p - bal * mr)) (month + 1) (by omega)
      constructor
      · rw [List.length_cons]
        omega
      · rcases hrec.2 with hnil | hlast | hlen
        · rw [hnil]
          have hwhy : ¬ 0 < bal - (p - bal * mr) ∨ 600 ≤ month + 1 := by
            cases n with
            | zero => right; omega
            | succ m =>
              simp only [amortAux] at hnil
              by_cases hcc : 0 < bal - (p - bal * mr) ∧ month + 1 < 600
              · rw [if_pos hcc] at hnil
                exact absurd hnil (by simp)
              · rcases not_and_or.mp hcc with h1 | h1
                · exact Or.inl h1
                · right; omega
          rcases hwhy with h1 | h1
          · right; left
            rw [List.getLast?_singleton]
            show some (if 0 < bal - (p - bal * mr)
              then bal - (p - bal * mr) else 0) = some 0
            rw [if_neg h1]
          · right; right
            simp only [List.length_cons, List.length_nil]
            omega
        · cases htail : amortAux mr p n (bal - (p - bal * mr)) (month + 1) with
          | nil =>
            rw [htail] at hlast
            simp at hlast
          | cons x xs =>
            right; left
            rw [htail] at hlast
            rw [List.getLast?_cons_cons]
            exact hlast
        · right; right
          rw [List.length_cons, hlen]
          omega
    case isFalse =>
      simp

theorem amortAux_stop (mr p : ℚ) (fuel : Nat) (bal : ℚ) (month : Nat)
    (h : ¬ month < 600) : amortAux mr p fuel bal month = [] := by
  cases fuel with
  | zero => rfl
  | succ n =>
    simp only [amortAux]
    rw [if_neg (fun hc => h hc.2)]

theorem amortAux_zero_rate (p : ℚ) (hp : 0 < p) :
    ∀ (fuel : Nat) (bal : ℚ) (month : Nat), month < 600 →
      601 ≤ fuel + month → ((600 - month : ℕ) : ℚ) * p < bal →
      (amortAux 0 p fuel bal month).length = 600 - month ∧
      ((amortAux 0 p fuel bal month).getLast?).map AmortRow.endingBalance
        = some (bal - ((600 - month : ℕ) : ℚ) * p) := by
  intro fuel
  induction fuel with
  | zero =>
    intro bal month hm hfu _
    omega
  | succ n ih =>
    intro bal month hm hfu hbal
    have hone : (1 : ℚ) ≤ ((600 - month : ℕ) : ℚ) := by
      have h1 : (1 : ℕ) ≤ 600 - month := by omega
      exact_mod_cast h1
    have hbalpos : 0 < bal :=
      lt_of_lt_of_le hp (le_trans (le_mul_of_one_le_left (le_of_lt hp) hone)
        (le_of_lt hbal))
    simp only [amortAux]
    rw [if_pos ⟨hbalpos, hm⟩]
    simp only [mul_zero, sub_zero]
    by_cases hnext : month + 1 < 600
    · have hcast : ((600 - month : ℕ) : ℚ)
          = ((600 - (month + 1) : ℕ) : ℚ) + 1 := by
        have h2 : 600 - month = (600 - (month + 1)) + 1 := by omega
        rw [h2]
        push_cast
        ring
      have hrec := ih (bal - p) (month + 1) hnext (by omega)
        (by rw [hcast] at hbal; linarith)
      cases htail : amortAux 0 p n (bal - p) (month + 1) with
      | nil =>
        rw [htail] at hrec
        simp at hrec
      | cons x xs =>
        rw [htail] at hrec
        constructor
        · rw [List.length_cons, hrec.1]
          omega
        · rw [List.getLast?_cons_cons, hrec.2, hcast]
          congr 1
          ring
    · have hm1 : month = 599 := by omega
      have hcast : ((600 - month : ℕ) : ℚ) = 1 := by
        rw [show 600 - month = 1 from by omega]
        norm_num
      rw [amortAux_stop 0 p n (bal - p) (month + 1) hnext]
      have hpos : 0 < bal - p := by
        rw [hcast] at hbal
        linarith
      constructor
      · simp only [List.length_cons, List.length_nil]
        omega
      · rw [List.getLast?_singleton]
        show some (if 0 < bal - p then bal - p else 0)
          = some (bal - ((600 - month : ℕ) : ℚ) * p)
        rw [if_pos hpos, hcast]
        congr 1
        ring

theorem foldl_add_amount (l : List Tx) (b : ℚ) :
    l.foldl (fun acc t => acc + t.amount) b = b + (l.map Tx.amount).sum := by
  induction l generalizing b with
  | nil => simp
  | cons t ts ih =>
    rw [List.foldl_cons, ih]
    simp [add_assoc]

theorem ledger_formula (s : Settings) (ts : List Tx) (p : Date) (a : ℚ)
    (d : Date) (ha : s.initialLoanAmount = some a)
    (hd : s.initialLoanDate = some d) (ha0 : ¬ a = 0)
    (htypes : ∀ t ∈ ts, ¬ t.type = TxType.initial) :
    balanceAt (buildLedger s ts).1 p
      = (if Date.le d p then a else 0) + creditSum ts p - debitSum ts p := by
  have hb : (buildLedger s ts).1 = foldEntries 0 (ledgerAll a d ts) := by
    unfold buildLedger
    rw [ha, hd]
    dsimp only
    rw [if_neg ha0]
  rw [hb, balanceAt_ledger, List.filter_cons,
    show (initialEntry a d).date = d from rfl]
  by_cases hdp : Date.le d p
  · rw [if_pos (decide_eq_true hdp), List.map_cons, List.sum_cons,
      signed_filter_sum p ts htypes]
    have hsa : signedAmt (initialEntry a d) = a := by
      simp [signedAmt, initialEntry]
    rw [hsa, if_pos hdp]
    ring
  · rw [if_neg (fun hc => hdp (of_decide_eq_true hc)),
      signed_filter_sum p ts htypes, if_neg hdp]
    ring

/-- Claim C1 (amended).  For a configured loan with nonzero initial
amount and transactions of user or interest types, the balance the
ledger shows at any calendar date `p` equals the initial amount counted
only once `p` has reached `initialLoanDate`, plus all `loanIncrease` and
`interest` amounts dated on or before `p`, minus all `payment` amounts
dated on or before `p`; and the Scenario B fold produces the balance
sequence 1000, 1100, 900.  (The unamended claim applies the initial
amount at every date and therefore fails for dates strictly before
`initialLoanDate`, and the code treats a present-but-zero initial amount
as an unconfigured loan.) -/
theorem claim_C1_balance_formula :
    (∀ (s : Settings) (ts : List Tx) (p : Date) (a : ℚ) (d : Date),
      s.initialLoanAmount = some a → s.initialLoanDate = some d →
      ¬ a = 0 → (∀ t ∈ ts, ¬ t.type = TxType.initial) →
      balanceAt (buildLedger s ts).1 p
        = (if Date.le d p then a else 0) + creditSum ts p - debitSum ts p)
    ∧ (buildLedger settingsA txsScenarioB).1.map LedgerEntry.runningBalance
        = [1000, 1100, 900] :=
  ⟨fun s ts p a d ha hd ha0 htypes =>
    ledger_formula s ts p a d ha hd ha0 htypes,
   by
    norm_num +decide [buildLedger, ledgerAll, sortByDate, List.insertionSort,
      List.orderedInsert, txLE, Date.le, initialEntry, foldEntries, applyTx,
      settingsA, txsScenarioB]⟩

/-- Witness for claim C1: the amended formula evaluated for Scenario B at
the date of the payment. -/
theorem claim_C1_witness :
    balanceAt (buildLedger settingsA txsScenarioB).1 ⟨2024, 1, 1⟩
      = (if Date.le ⟨2024, 0, 1⟩ ⟨2024, 1, 1⟩ then (1000 : ℚ) else 0)
        + creditSum txsScenarioB ⟨2024, 1, 1⟩
        - debitSum txsScenarioB ⟨2024, 1, 1⟩ :=
  claim_C1_balance_formula.1 settingsA txsScenarioB ⟨2024, 1, 1⟩ 1000
    ⟨2024, 0, 1⟩ rfl rfl (by norm_num) (by decide)

/-- Counterexample to claim C1 as stated.  First: a payment dated before
`initialLoanDate` is folded before the synthetic initial entry, so the
balance at that date is -50, not the 950 the unconditional formula
initialLoanAmount plus credits minus debits would give.  Second: a loan
with a present but zero initial amount yields the empty ledger (balance
0 at every date), not the formula value 100. -/
theorem claim_C1_cx :
    (balanceAt (buildLedger settingsFeb [preDateTx]).1 ⟨2024, 0, 10⟩ = -50
      ∧ ¬ (-50 : ℚ) = 1000 + 0 - 50)
    ∧ (balanceAt (buildLedger ⟨"", some 0, some 0, some ⟨2024, 0, 1⟩⟩
          [⟨⟨2024, 0, 15⟩, TxType.loanIncrease, 100, "", "user"⟩]).1
          ⟨2024, 0, 15⟩ = 0
      ∧ ¬ (0 : ℚ) = 0 + 100 - 0) :=
  ⟨⟨by
      norm_num +decide [buildLedger, ledgerAll, sortByDate,
        List.insertionSort, List.orderedInsert, txLE, Date.le, initialEntry,
        foldEntries, applyTx, settingsFeb, preDateTx, balanceAt],
    by norm_num⟩,
   ⟨by
      norm_num +decide [buildLedger, balanceAt],
    by norm_num⟩⟩

/-- Claim C2.  One reconciliation pass deletes every stored interest
transaction and regenerates the accrual history from the non-interest
transactions alone, so a second pass on the resulting store is a no-op:
the store is a fixed point after one pass, for every configuration,
snapshot date and fuel bound. -/
theorem claim_C2_reconcile_idempotent (s : Settings) (today : Date)
    (fuel : Nat) (store : List Tx) :
    reconcileInterest s today fuel (reconcileInterest s today fuel store)
      = reconcileInterest s today fuel store := by
  obtain ⟨title, amount, rate, idate⟩ := s
  cases idate with
  | none => rfl
  | some d =>
    cases rate with
    | none => rfl
    | some r =>
      show (List.filter (fun t => ¬ t.type = TxType.interest) store
              ++ generatedAccruals ⟨title, amount, some r, some d⟩ today
                  fuel store).filter (fun t => ¬ t.type = TxType.interest)
            ++ generatedAccruals ⟨title, amount, some r, some d⟩ today fuel
                (List.filter (fun t => ¬ t.type = TxType.interest) store
                  ++ generatedAccruals ⟨title, amount, some r, some d⟩ today
                      fuel store)
          = List.filter (fun t => ¬ t.type = TxType.interest) store
              ++ generatedAccruals ⟨title, amount, some r, some d⟩ today
                  fuel store
      have hg := generatedAccruals_mem_type ⟨title, amount, some r, some d⟩
        today fuel store
      have hfilter := filter_nonInterest_of_gen store
        (generatedAccruals ⟨title, amount, some r, some d⟩ today fuel store) hg
      rw [hfilter,
        generatedAccruals_congr ⟨title, amount, some r, some d⟩ today fuel _
          store (by rw [hfilter])]

/-- Claim C3 (code bug).  A successful settings save is supposed to
trigger a reconciliation pass, but `handleSaveSettings` invokes
`runInterestCalculation()` with no arguments, so the guard
`!currentLoanData` returns immediately: the transaction store is left
unchanged (here empty), even though an actual reconciliation of the
saved settings would insert an interest accrual. -/
theorem claim_C3_save_skips_reconcile :
    handleSaveSettings ⟨"", none, none, none⟩
        ⟨"My Loan", some 1000, 12, some ⟨2024, 0, 15⟩⟩ ⟨2024, 2, 10⟩ 4 []
      = some (⟨"My Loan", some 1000, some 12, some ⟨2024, 0, 15⟩⟩, [])
    ∧ ¬ reconcileInterest ⟨"My Loan", some 1000, some 12, some ⟨2024, 0, 15⟩⟩
        ⟨2024, 2, 10⟩ 4 [] = [] :=
  ⟨rfl,
   by
    norm_num +decide [reconcileInterest, runInterestCalculation,
      generatedAccruals, interestLoop, sortByDate, List.insertionSort,
      List.orderedInsert, txLE, Date.le, Date.lt, endOfMonth, startOfMonth,
      addMonthJS, daysInMonth, isLeap, applyTx, monthName, initialEntry,
      intStr, natStrAux, digitStr]⟩

/-- Claim C4 (amended).  Previously stored interest transactions never
contribute to the accrual basis: appending any set of interest-type
transactions to the snapshot leaves the generated accruals unchanged.
(The unamended claim also excluded interest regenerated earlier in the
same pass, which the code does feed into later months.) -/
theorem claim_C4_basis_ignores_stored_interest (s : Settings)
    (today : Date) (fuel : Nat) (basis extra : List Tx)
    (h : ∀ t ∈ extra, t.type = TxType.interest) :
    generatedAccruals s today fuel (basis ++ extra)
      = generatedAccruals s today fuel basis := by
  apply generatedAccruals_congr
  rw [List.filter_append]
  have hextra : extra.filter (fun t => ¬ t.type = TxType.interest) = [] := by
    rw [List.filter_eq_nil_iff]
    intro a ha
    simp [h a ha]
  rw [hextra, List.append_nil]

/-- Witness for claim C4: adding a stored interest transaction to the
snapshot does not change the generated accruals. -/
theorem claim_C4_witness :
    generatedAccruals settingsC ⟨2024, 2, 10⟩ 600
        ([] ++ [⟨⟨2024, 0, 31⟩, TxType.interest, 5, "", "system"⟩])
      = generatedAccruals settingsC ⟨2024, 2, 10⟩ 600 [] :=
  claim_C4_basis_ignores_stored_interest settingsC ⟨2024, 2, 10⟩ 600 []
    [⟨⟨2024, 0, 31⟩, TxType.interest, 5, "", "system"⟩] (by decide)

/-- Counterexample to claim C4 as stated.  With amount 1000, rate 12 and
two accruing months, the first generated accrual is 10 but the second is
10.1: the February interest generated earlier in the same pass was
pushed into the dynamic transaction list and compounded into the March
basis, whereas a basis of non-interest transactions alone would give 10
= 1000 * ((12/100)/12) again. -/
theorem claim_C4_cx :
    (generatedAccruals settingsC ⟨2024, 3, 10⟩ 5 []).map Tx.amount
      = [10, 101 / 10]
    ∧ ¬ (101 / 10 : ℚ) = 1000 * ((12 / 100) / 12) :=
  ⟨by
    norm_num +decide [generatedAccruals, settingsC, interestLoop, sortByDate,
      List.insertionSort, List.orderedInsert, txLE, Date.le, Date.lt,
      endOfMonth, startOfMonth, addMonthJS, daysInMonth, isLeap, applyTx,
      monthName, initialEntry, intStr, natStrAux, digitStr],
   by norm_num⟩

/-- Claim C5.  For amount 1000, annual rate 12 (one percent per month),
no payments and exactly one fully elapsed month (initial date 2024-01-15,
today 2024-03-10), one pass generates exactly one interest transaction
of amount 10, dated at the last calendar day of the elapsed month,
February 29 2024. -/
theorem claim_C5_single_accrual :
    generatedAccruals settingsC ⟨2024, 2, 10⟩ 4 []
      = [⟨⟨2024, 1, 29⟩, TxType.interest, 10,
          "Monthly Interest - February 2024", "system"⟩]
    ∧ endOfMonth ⟨2024, 1, 15⟩ = ⟨2024, 1, 29⟩ :=
  ⟨by
    norm_num +decide [generatedAccruals, settingsC, interestLoop, sortByDate,
      List.insertionSort, List.orderedInsert, txLE, Date.le, Date.lt,
      endOfMonth, startOfMonth, addMonthJS, daysInMonth, isLeap, applyTx,
      monthName, initialEntry, intStr, natStrAux, digitStr],
   by decide⟩

/-- Claim C6.  The projection engine rejects every non-positive monthly
payment as an invalid payment; for a positive payment not exceeding the
monthly interest on the current balance it fails with paymentTooSmall
and produces no schedule; and in particular balance 1000 at annual rate
12 with payment 10 fails with paymentTooSmall. -/
theorem claim_C6_projection_validation :
    (∀ b r p : ℚ, p ≤ 0 → handleCalculateProjections b r p
      = Except.error ProjectionError.invalidPayment)
    ∧ (∀ b r p : ℚ, 0 < p → p ≤ b * ((r / 100) / 12) →
      handleCalculateProjections b r p
        = Except.error ProjectionError.paymentTooSmall)
    ∧ handleCalculateProjections 1000 12 10
        = Except.error ProjectionError.paymentTooSmall := by
  refine ⟨?_, ?_, ?_⟩
  · intro b r p hp
    unfold handleCalculateProjections
    rw [if_pos hp]
  · intro b r p hp hsmall
    unfold handleCalculateProjections
    rw [if_neg (not_le.mpr hp)]
    dsimp only
    rw [if_pos hsmall]
  · unfold handleCalculateProjections
    rw [if_neg (by norm_num : ¬ (10 : ℚ) ≤ 0)]
    dsimp only
    rw [if_pos (by norm_num : (10 : ℚ) ≤ 1000 * ((12 / 100) / 12))]

/-- Witness for claim C6: both validation failures at concrete inputs. -/
theorem claim_C6_witness :
    handleCalculateProjections 500 12 (-3)
      = Except.error ProjectionError.invalidPayment
    ∧ handleCalculateProjections 2000 12 15
      = Except.error ProjectionError.paymentTooSmall :=
  ⟨claim_C6_projection_validation.1 500 12 (-3) (by norm_num),
   claim_C6_projection_validation.2.1 2000 12 15 (by norm_num) (by norm_num)⟩

/-- Claim C7.  For a positive starting balance, every schedule the
projection engine returns has strictly decreasing ending balances from
each row to the next. -/
theorem claim_C7_strict_decrease (b r p : ℚ) (sched : List AmortRow)
    (hb : 0 < b) (h : handleCalculateProjections b r p = Except.ok sched) :
    List.Chain' (fun x y : ℚ => y < x) (sched.map AmortRow.endingBalance) := by
  have hb2 := hb
  clear hb2
  unfold handleCalculateProjections at h
  by_cases h₁ : p ≤ 0
  · rw [if_pos h₁] at h
    exact absurd h (by simp)
  · rw [if_neg h₁] at h
    dsimp only at h
    by_cases h₂ : p ≤ b * ((r / 100) / 12)
    · rw [if_pos h₂] at h
      exact absurd h (by simp)
    · rw [if_neg h₂] at h
      have hsched : amortAux ((r / 100) / 12) p 601 b 1 = sched :=
        Except.ok.inj h
      have hchain := amortAux_chain ((r / 100) / 12) p (not_le.mp h₁) 601 b 1
        (fun _ => not_le.mp h₂)
      rw [hsched] at hchain
      cases hmap : sched.map AmortRow.endingBalance with
      | nil => trivial
      | cons e rest =>
        rw [hmap] at hchain
        cases hchain with
        | cons hrel hrest => exact hrest

/-- Witness for claim C7: balance 100, rate 0, payment 100 pays off in
one month and the ending balances decrease strictly. -/
theorem claim_C7_witness :
    List.Chain' (fun x y : ℚ => y < x)
      ((amortAux ((0 / 100) / 12) 100 601 100 1).map AmortRow.endingBalance) :=
  claim_C7_strict_decrease 100 0 100
    (amortAux ((0 / 100) / 12) 100 601 100 1) (by norm_num)
    (by
      unfold handleCalculateProjections
      rw [if_neg (by norm_num : ¬ (100 : ℚ) ≤ 0)]
      dsimp only
      rw [if_neg (by norm_num : ¬ (100 : ℚ) ≤ 100 * ((0 / 100) / 12))])

/-- Claim C8 (amended).  Every input passing the projection validations
yields a schedule (never an error): the loop stops when the balance
drops to or below zero, in which case the final ending balance is
clamped to exactly 0, or after at most 599 iterations, the month counter
starting at 1 under the guard month < 600.  (The unamended claim put the
hard cap at 600 iterations.) -/
theorem claim_C8_cap (b r p : ℚ) (hp : 0 < p)
    (hr : b * ((r / 100) / 12) < p) :
    ∃ sched, handleCalculateProjections b r p = Except.ok sched ∧
      sched.length ≤ 599 ∧
      (sched = [] ∨
        (sched.getLast?).map AmortRow.endingBalance = some 0 ∨
        sched.length = 599) := by
  refine ⟨amortAux ((r / 100) / 12) p 601 b 1, ?_, ?_, ?_⟩
  · unfold handleCalculateProjections
    rw [if_neg (not_le.mpr hp)]
    dsimp only
    rw [if_neg (not_le.mpr hr)]
  · have hlen := (amortAux_length ((r / 100) / 12) p 601 b 1 (by omega)).1
    omega
  · have hlen := (amortAux_length ((r / 100) / 12) p 601 b 1 (by omega)).2
    rcases hlen with h1 | h1 | h1
    · exact Or.inl h1
    · exact Or.inr (Or.inl h1)
    · exact Or.inr (Or.inr (by omega))

/-- Witness for claim C8: balance 100, rate 0, payment 100. -/
theorem claim_C8_witness :
    ∃ sched, handleCalculateProjections 100 0 100 = Except.ok sched ∧
      sched.length ≤ 599 ∧
      (sched = [] ∨
        (sched.getLast?).map AmortRow.endingBalance = some 0 ∨
        sched.length = 599) :=
  claim_C8_cap 100 0 100 (by norm_num) (by norm_num)

/-- Counterexample to claim C8 as stated: balance 600, rate 0, payment 1
is not paid off within the cap, and the truncated schedule has 599 rows
with final ending balance 1 — the loop neither reached a zero balance
nor performed the 600 iterations the claim states. -/
theorem claim_C8_cx :
    (handleCalculateProjections 600 0 1).map
        (fun l => (l.length, (l.getLast?).map AmortRow.endingBalance))
      = Except.ok (599, some 1)
    ∧ ¬ (599 : Nat) = 600 ∧ ¬ (some (1 : ℚ)) = some 0 := by
  refine ⟨?_, by decide, by norm_num⟩
  have hz : ((0 : ℚ) / 100) / 12 = 0 := by norm_num
  have hmain := amortAux_zero_rate 1 (by norm_num) 601 600 1 (by omega)
    (by omega) (by norm_num)
  unfold handleCalculateProjections
  rw [if_neg (by norm_num : ¬ (1 : ℚ) ≤ 0)]
  dsimp only
  rw [if_neg (by norm_num : ¬ (1 : ℚ) ≤ 600 * ((0 / 100) / 12)), hz]
  simp only [Except.map]
  rw [hmain.1, hmain.2]
  norm_num

/-- Claim C9.  For a positive initial amount the paid-off percentage is
the clamp to [0, 100] of the payment total divided by the initial amount
times 100; non-payment transactions (interest, loanIncrease) never
change it; and Scenario A (amount 1000, one payment of 200) gives 20. -/
theorem claim_C9_percentage :
    (∀ (s : Settings) (ts : List Tx) (a : ℚ),
      s.initialLoanAmount = some a → 0 < a →
      percentagePaidOff s ts = max 0 (min 100 (paymentsTotal ts / a * 100)))
    ∧ (∀ (s : Settings) (ts : List Tx) (t : Tx), ¬ t.type = TxType.payment →
      percentagePaidOff s (t :: ts) = percentagePaidOff s ts)
    ∧ percentagePaidOff settingsA
        [⟨⟨2024, 1, 1⟩, TxType.payment, 200, "", "user"⟩] = 20 := by
  refine ⟨?_, ?_, by norm_num +decide [percentagePaidOff, settingsA]⟩
  · intro s ts a ha ha0
    unfold percentagePaidOff
    rw [ha]
    dsimp only
    rw [if_neg (not_le.mpr ha0), foldl_add_amount, zero_add]
    rfl
  · intro s ts t htype
    unfold percentagePaidOff
    cases s.initialLoanAmount with
    | none => rfl
    | some a =>
      dsimp only
      by_cases ha : a ≤ 0
      · rw [if_pos ha, if_pos ha]
      · rw [if_neg ha, if_neg ha, List.filter_cons,
          if_neg (fun hc => htype (of_decide_eq_true hc))]

/-- Witness for claim C9: the formula at Scenario A with no payments,
and invariance under a loanIncrease. -/
theorem claim_C9_witness :
    percentagePaidOff settingsA ([] : List Tx)
      = max 0 (min 100 (paymentsTotal [] / 1000 * 100))
    ∧ percentagePaidOff settingsA
        [⟨⟨2024, 0, 5⟩, TxType.loanIncrease, 10, "", "user"⟩]
      = percentagePaidOff settingsA [] :=
  ⟨claim_C9_percentage.1 settingsA [] 1000 rfl (by norm_num),
   claim_C9_percentage.2.1 settingsA []
     ⟨⟨2024, 0, 5⟩, TxType.loanIncrease, 10, "", "user"⟩ (by decide)⟩

/-- Claim C10.  A transaction dated strictly before `initialLoanDate`
sorts before the synthetic initial entry in fold order; at any date
strictly before `initialLoanDate` the shown balance is accumulated from
0 without the initial amount (credits minus debits only); and concretely
a payment of 50 dated before the initial date puts the ledger at running
balance -50, which is negative, before the initial entry brings it to
950. -/
theorem claim_C10_pre_initial :
    (∀ (a : ℚ) (d : Date) (ts : List Tx) (t : Tx), t ∈ ts →
      Date.lt t.date d →
      ∃ (i j : Nat) (hi : i < (ledgerAll a d ts).length)
        (hj : j < (ledgerAll a d ts).length),
        i < j ∧ (ledgerAll a d ts)[i] = t
          ∧ (ledgerAll a d ts)[j] = initialEntry a d)
    ∧ (∀ (s : Settings) (ts : List Tx) (p : Date) (a : ℚ) (d : Date),
      s.initialLoanAmount = some a → s.initialLoanDate = some d →
      ¬ a = 0 → (∀ t ∈ ts, ¬ t.type = TxType.initial) → Date.lt p d →
      balanceAt (buildLedger s ts).1 p = creditSum ts p - debitSum ts p)
    ∧ ((buildLedger settingsFeb [preDateTx]).1.map LedgerEntry.runningBalance
        = [-50, 950]
      ∧ (-50 : ℚ) < 0) := by
  refine ⟨?_, ?_,
    by
      norm_num +decide [buildLedger, ledgerAll, sortByDate,
        List.insertionSort, List.orderedInsert, txLE, Date.le, initialEntry,
        foldEntries, applyTx, settingsFeb, preDateTx],
    by norm_num⟩
  · intro a d ts t hts hlt
    have hperm := List.perm_insertionSort txLE (initialEntry a d :: ts)
    have hmem_t : t ∈ ledgerAll a d ts := by
      unfold ledgerAll sortByDate
      exact (List.Perm.mem_iff hperm).mpr (List.mem_cons_of_mem _ hts)
    have hmem_i : initialEntry a d ∈ ledgerAll a d ts := by
      unfold ledgerAll sortByDate
      exact (List.Perm.mem_iff hperm).mpr (List.mem_cons_self _ _)
    obtain ⟨i, hi, hit⟩ := List.getElem_of_mem hmem_t
    obtain ⟨j, hj, hji⟩ := List.getElem_of_mem hmem_i
    refine ⟨i, j, hi, hj, ?_, hit, hji⟩
    have hs : List.Sorted txLE (ledgerAll a d ts) := by
      unfold ledgerAll sortByDate
      exact List.sorted_insertionSort txLE _
    have hpw := List.pairwise_iff_getElem.mp hs
    rcases Nat.lt_trichotomy i j with hij | hij | hij
    · exact hij
    · exfalso
      subst hij
      have heq : t = initialEntry a d := hit.symm.trans hji
      rw [heq] at hlt
      exact Date.lt_irrefl d hlt
    · exfalso
      have hrel := hpw j i hj hi hij
      rw [hji, hit] at hrel
      exact Date.not_le_of_lt hlt hrel
  · intro s ts p a d ha hd ha0 htypes hlt
    rw [ledger_formula s ts p a d ha hd ha0 htypes,
      if_neg (Date.not_le_of_lt hlt)]
    ring

/-- Witness for claim C10: the position statement and the pre-initial
balance formula at the concrete pre-dated payment. -/
theorem claim_C10_witness :
    (∃ (i j : Nat)
      (hi : i < (ledgerAll 1000 ⟨2024, 1, 1⟩ [preDateTx]).length)
      (hj : j < (ledgerAll 1000 ⟨2024, 1, 1⟩ [preDateTx]).length),
      i < j ∧ (ledgerAll 1000 ⟨2024, 1, 1⟩ [preDateTx])[i] = preDateTx
        ∧ (ledgerAll 1000 ⟨2024, 1, 1⟩ [preDateTx])[j]
            = initialEntry 1000 ⟨2024, 1, 1⟩)
    ∧ balanceAt (buildLedger settingsFeb [preDateTx]).1 ⟨2024, 0, 10⟩
        = creditSum [preDateTx] ⟨2024, 0, 10⟩
          - debitSum [preDateTx] ⟨2024, 0, 10⟩ :=
  ⟨claim_C10_pre_initial.1 1000 ⟨2024, 1, 1⟩ [preDateTx] preDateTx
      (by simp) (by decide),
   claim_C10_pre_initial.2.1 settingsFeb [preDateTx] ⟨2024, 0, 10⟩ 1000
      ⟨2024, 1, 1⟩ rfl rfl (by norm_num) (by decide) (by decide)⟩

end LoanTracker
